import Mathlib

/-!
Verification of the ultrasonics persistence layer (`ultrasonics/database.py`).

The Python module stores three logical tables in SQLite:
  `ultrasonics (key TEXT, value TEXT)`, global settings;
  `plugins (id INTEGER PRIMARY KEY, plugin TEXT, version FLOAT, settings TEXT)`;
  `applets (id TEXT PRIMARY KEY, lastrun TEXT, data TEXT)`.

Values are serialized on write with Python `str(...)` and deserialized on read
with `ast.literal_eval(...)`.  Each operation opens a connection, runs one SQL
statement, and wraps the work in `try: ... except sqlite3.Error: log(...)`.
Exceptions other than `sqlite3.Error` (notably `ValueError` from
`ast.literal_eval` and `IndexError` from `rows[0]`) are NOT caught and
propagate out of the operation.

The embedding below models tables as Lean lists of rows (in rowid order),
text as `List Char`, Python exceptions as the `Except` error branch, and the
`str`/`literal_eval` codec as an explicit printer (`pyStr`/`pyRepr`) and a
fuel-based parser (`parseVal`) over the value shapes the repository stores:
strings, integers, booleans, lists and dicts, nested.  The well-formedness
predicate `wf` restricts string contents to printable ASCII without
backslashes and without both quote kinds at once (the characters Python's
`repr` prints verbatim, so the printer needs no escape sequences), and dict
keys to hashable scalars, mirroring what Python values can actually hold.
-/

/-! ### Characters used by the codec -/

def squote : Char := Char.ofNat 39

def dquote : Char := Char.ofNat 34

def lbrace : Char := Char.ofNat 123

def rbrace : Char := Char.ofNat 125

/-! ### The value shapes handled by the `str`/`ast.literal_eval` codec -/

inductive Value where
  | str (s : List Char)
  | int (n : Int)
  | bool (b : Bool)
  | list (xs : List Value)
  | dict (kvs : List (Value × Value))

def isStrVal : Value → Bool
  | .str _ => true
  | _ => false

mutual
def wf : Value → Bool
  | .str s => s.all (fun c => 32 ≤ c.toNat && c.toNat ≤ 126 && c.toNat ≠ 92) &&
      !(squote ∈ s && dquote ∈ s)
  | .int _ => true
  | .bool _ => true
  | .list xs => wfList xs
  | .dict kvs => wfDict kvs

def wfList : List Value → Bool
  | [] => true
  | v :: vs => wf v && wfList vs

def wfDict : List (Value × Value) → Bool
  | [] => true
  | (k, v) :: kvs => scalarKey k && wf k && wf v && wfDict kvs

def scalarKey : Value → Bool
  | .list _ => false
  | .dict _ => false
  | _ => true
end

/-! ### Encoding: Python `str(value)`.

`str` on a container uses `repr` on the parts; `repr` of a string adds quotes
(double quotes when the string contains a single quote), `repr` of `True`,
`False` and integers is their usual text.  A *top-level* string is returned
by `str` as-is, unquoted. -/

def digitChar (d : Nat) : Char := Char.ofNat (48 + d)

def natDigits (n : Nat) : List Char :=
  if n = 0 then [ '0' ] else ((Nat.digits 10 n).reverse.map digitChar)

def intChars (n : Int) : List Char :=
  if n < 0 then '-' :: natDigits n.natAbs else natDigits n.toNat

def strQuote (s : List Char) : Char := if squote ∈ s then dquote else squote

mutual
def pyRepr : Value → List Char
  | .str s => strQuote s :: s ++ [ strQuote s ]
  | .int n => intChars n
  | .bool b => if b then [ 'T', 'r', 'u', 'e' ] else [ 'F', 'a', 'l', 's', 'e' ]
  | .list xs => '[' :: pyReprList xs ++ [ ']' ]
  | .dict kvs => lbrace :: pyReprDict kvs ++ [ rbrace ]

def pyReprList : List Value → List Char
  | [] => []
  | [v] => pyRepr v
  | v :: vs => pyRepr v ++ ',' :: ' ' :: pyReprList vs

def pyReprDict : List (Value × Value) → List Char
  | [] => []
  | [(k, v)] => pyRepr k ++ ':' :: ' ' :: pyRepr v
  | (k, v) :: kvs => pyRepr k ++ ':' :: ' ' :: pyRepr v ++ ',' :: ' ' :: pyReprDict kvs
end

def pyStr : Value → List Char
  | .str s => s
  | v => pyRepr v

/-! ### Decoding: `ast.literal_eval(text)`.

A recursive-descent parser over the canonical textual form produced by
`str`; fuel bounds the recursion depth.  Malformed text parses to `none`,
modelling the `ValueError` raised by `ast.literal_eval`. -/

def takeUntilChar (q : Char) : List Char → Option (List Char × List Char)
  | [] => none
  | c :: cs =>
    if c = q then some ([], cs)
    else (takeUntilChar q cs).map (fun p => (c :: p.1, p.2))

def takeDigitsFrom : List Char → List Char × List Char
  | [] => ([], [])
  | c :: cs =>
    if c.isDigit then
      ((takeDigitsFrom cs).1.cons c, (takeDigitsFrom cs).2)
    else ([], c :: cs)

def parseNatChars (ds : List Char) : Nat :=
  ds.foldl (fun a c => 10 * a + (c.toNat - 48)) 0

mutual
def parseVal : Nat → List Char → Option (Value × List Char)
  | 0, _ => none
  | _, [] => none
  | fuel + 1, c :: cs =>
    if c = squote then
      (takeUntilChar squote cs).map (fun p => (Value.str p.1, p.2))
    else if c = dquote then
      (takeUntilChar dquote cs).map (fun p => (Value.str p.1, p.2))
    else if c = '[' then
      match cs with
      | [] => none
      | c2 :: cs2 =>
        if c2 = ']' then some (Value.list [], cs2)
        else (parseListTail fuel (c2 :: cs2)).map (fun p => (Value.list p.1, p.2))
    else if c = lbrace then
      match cs with
      | [] => none
      | c2 :: cs2 =>
        if c2 = rbrace then some (Value.dict [], cs2)
        else (parseDictTail fuel (c2 :: cs2)).map (fun p => (Value.dict p.1, p.2))
    else if c = '-' then
      match takeDigitsFrom cs with
      | (ds, rest) =>
        if ds = [] then none
        else some (Value.int (-(parseNatChars ds : Int)), rest)
    else if c.isDigit then
      match takeDigitsFrom (c :: cs) with
      | (ds, rest) => some (Value.int ((parseNatChars ds : Nat) : Int), rest)
    else if c = 'T' then
      if cs.take 3 = [ 'r', 'u', 'e' ] then some (Value.bool true, cs.drop 3) else none
    else if c = 'F' then
      if cs.take 4 = [ 'a', 'l', 's', 'e' ] then some (Value.bool false, cs.drop 4) else none
    else none

def parseListTail : Nat → List Char → Option (List Value × List Char)
  | 0, _ => none
  | fuel + 1, cs =>
    match parseVal fuel cs with
    | none => none
    | some (v, rest) =>
      match rest with
      | [] => none
      | c :: rest2 =>
        if c = ']' then some ([v], rest2)
        else if c = ',' then
          match rest2 with
          | [] => none
          | c2 :: rest3 =>
            if c2 = ' ' then (parseListTail fuel rest3).map (fun p => (v :: p.1, p.2))
            else none
        else none

def parseDictTail : Nat → List Char → Option (List (Value × Value) × List Char)
  | 0, _ => none
  | fuel + 1, cs =>
    match parseVal fuel cs with
    | none => none
    | some (k, rest) =>
      match rest with
      | c :: c2 :: rest2 =>
        if c = ':' ∧ c2 = ' ' then
          match parseVal fuel rest2 with
          | none => none
          | some (v, rest3) =>
            match rest3 with
            | [] => none
            | c3 :: rest4 =>
              if c3 = rbrace then some ([(k, v)], rest4)
              else if c3 = ',' then
                match rest4 with
                | [] => none
                | c4 :: rest5 =>
                  if c4 = ' ' then (parseDictTail fuel rest5).map (fun p => ((k, v) :: p.1, p.2))
                  else none
              else none
        else none
      | _ => none
end

def decode (cs : List Char) : Option Value :=
  match parseVal (cs.length + 1) cs with
  | some (v, []) => some v
  | _ => none

/-! ### Python exceptions that can escape an operation -/

inductive PyError where
  | valueError
  | indexError
deriving DecidableEq

/-! ### The `ultrasonics` settings table and the global settings schema -/

structure SettingItem where
  type : String
  value : String
  label : Option String
  name : Option String
deriving DecidableEq

def global_settings : List SettingItem := [
  { type := "string",
    value := "Many plugins utilise third party apis, which often require sensitive api keys 🔑 to access (Spotify, last.fm, Deezer, etc). The ultrasonics-api program acts as a proxy server for these apis, while keeping secret api keys... secret.",
    label := none, name := none },
  { type := "string",
    value := "You can host this yourself alongside ultrasonics, and set up all the required api keys for the services you want to use. Alternatively, use the official hosted server for faster setup.",
    label := none, name := none },
  { type := "string",
    value := "If you don\x27t need / want to use any of these services, just leave the url empty 😊.",
    label := none, name := none },
  { type := "link",
    value := "https://github.com/XDGFX/ultrasonics-api",
    label := none, name := none },
  { type := "text",
    value := "https://ultrasonics-api.herokuapp.com/api/",
    label := some "ultrasonics-api URL",
    name := some "api_url" }
]

/-- The item types whose values are persisted (`["text", "radio", "select"]`
in the source comprehensions). -/
def dbTypes : List String := [ "text", "radio", "select" ]

/-- Default settings rows inserted on first install:
`[(item["name"], item["value"]) for item in global_settings if item["type"] in ["text", "radio", "select"]]`. -/
def settingsDefaults : List (String × String) :=
  (global_settings.filter (fun i => dbTypes.contains i.type)).map
    (fun i => (i.name.getD "", i.value))

/-- First row returned by `SELECT value FROM ultrasonics WHERE key = ?`
(rows come back in rowid order, `rows[0][0]`). -/
def lookupFirst (tbl : List (String × String)) (k : String) : Option String :=
  match tbl with
  | [] => none
  | kv :: rest => if kv.1 = k then some kv.2 else lookupFirst rest k

/-- Python dict assignment `d[k] = v` on an association list: overwrite in
place when the key exists, append otherwise. -/
def dictSet (d : List (String × String)) (k v : String) : List (String × String) :=
  if d.any (fun kv => kv.1 == k) then
    d.map (fun kv => if kv.1 = k then (kv.1, v) else kv)
  else d ++ [(k, v)]

/-! ### Database state -/

structure PluginRow where
  id : Nat
  plugin : String
  version : String
  settings : Option (List Char)

structure AppletRow where
  id : String
  lastrun : Option (List Char)
  data : List Char

structure DBState where
  ultrasonics : Option (List (String × String))
  plugins : Option (List PluginRow)
  applets : Option (List AppletRow)

def emptyDB : DBState := { ultrasonics := none, plugins := none, applets := none }

/-- The concrete state produced by `connect` from a pristine store with
process metadata `{"version": "1.0"}`. -/
def seededDB : DBState :=
  { ultrasonics := some ([("version", "1.0"), ("new_install", "1")] ++ settingsDefaults),
    plugins := some [], applets := some [] }

/-! ### Install state tracker -/

/-- `new_install()` (no `update`): `None` when the `ultrasonics` table does
not exist; otherwise `rows[0][0] == '1'` for the `new_install` key, raising
`IndexError` (uncaught — the handler only catches `sqlite3.Error`) when the
key has no row. -/
def new_install (db : DBState) : Except PyError (Option Bool) :=
  match db.ultrasonics with
  | none => Except.ok none
  | some tbl =>
    match lookupFirst tbl "new_install" with
    | none => Except.error PyError.indexError
    | some v => Except.ok (some (v == "1"))

/-- `new_install(update=True)`: `UPDATE ultrasonics SET value = 0 WHERE
key = 'new_install'` (the integer `0` lands as text `"0"` in the TEXT
column).  A missing table raises `sqlite3.Error`, which IS caught and
logged, leaving the state unchanged. -/
def new_install_update (db : DBState) : DBState :=
  match db.ultrasonics with
  | none => db
  | some tbl =>
    let tbl2 := tbl.map (fun kv => if kv.1 = "new_install" then (kv.1, "0") else kv)
    { db with ultrasonics := some tbl2 }

/-- `connect()`: when `new_install()` returns `None`, creates the
`ultrasonics` table and seeds it with the process metadata dict
`_ultrasonics` (after `_ultrasonics["new_install"] = True`, stored as text
`"1"`) followed by the default rows of the configurable schema items; always
ensures the `plugins` and `applets` tables exist; finally reads the
`version` row (`rows[0][0]`, an uncaught `IndexError` when absent) and only
warns on mismatch. -/
def connect (meta : List (String × String)) (db : DBState) : Except PyError DBState :=
  match new_install db with
  | Except.error e => Except.error e
  | Except.ok r =>
    let uTbl := match r with
      | none => dictSet meta "new_install" "1" ++ settingsDefaults
      | some _ => db.ultrasonics.getD []
    let db1 : DBState :=
      { ultrasonics := some uTbl,
        plugins := some (db.plugins.getD []),
        applets := some (db.applets.getD []) }
    match lookupFirst uTbl "version" with
    | none => Except.error PyError.indexError
    | some _ => Except.ok db1

/-! ### Global settings store -/

/-- `global_settings_load(raw=True)`: build a dict from all
`(key, value)` rows in order. -/
def global_settings_load_raw (tbl : List (String × String)) : List (String × String) :=
  tbl.foldl (fun d kv => dictSet d kv.1 kv.2) []

/-- `global_settings_load(raw=False)`: deep-copy `global_settings`, then for
every stored row whose key is one of the configurable names overwrite the
`value` of each schema item with that `name`. -/
def global_settings_load (tbl : List (String × String)) : List SettingItem :=
  let data := global_settings
  let compat := (data.filter (fun i => dbTypes.contains i.type)).map (fun i => i.name.getD "")
  tbl.foldl
    (fun acc kv =>
      if compat.contains kv.1 then
        acc.map (fun item => if item.name = some kv.1 then { item with value := kv.2 } else item)
      else acc)
    data

/-- Last stored value for key `k`, else default `d` — what the
`global_settings_load` row loop leaves in a descriptor's `value` field.
Written from the spec's words for the merge ("every configurable
descriptor's `value` field overwritten by the stored value for its `name`
... with no matching stored row at its compiled-in default"). -/
def lookupLastD (tbl : List (String × String)) (k d : String) : String :=
  tbl.foldl (fun acc kv => if kv.1 = k then kv.2 else acc) d

/-- Modelled from the spec: the non-raw settings view as §4.3 words it — a
copy of the canonical schema where each configurable descriptor carries the
stored value for its `name` (default if none is stored), display
descriptors are untouched, and stored keys outside the schema do not
appear. -/
def global_settings_load_spec (tbl : List (String × String)) : List SettingItem :=
  global_settings.map (fun item =>
    if dbTypes.contains item.type then
      match item.name with
      | some n => { item with value := lookupLastD tbl n item.value }
      | none => item
    else item)

/-- The schema with the single configurable descriptor (`api_url`) set to
`x` — the loop invariant of the `global_settings_load` row loop. -/
def gAcc (x : String) : List SettingItem :=
  global_settings.map (fun item =>
    if item.name = some "api_url" then { item with value := x } else item)

/-! ### Plugin registry -/

/-- `plugin_create_entry`: `INSERT INTO plugins(plugin, version)
VALUES(?,?)` with `settings` NULL and an auto-assigned id. -/
def plugin_create_entry (db : List PluginRow) (name version : String) : List PluginRow :=
  db ++ [ { id := db.length + 1, plugin := name, version := version, settings := none } ]

/-- `plugin_update_entry`: `UPDATE plugins SET settings = ? WHERE plugin = ?
AND version = ?` with `str(settings)`. -/
def plugin_update_entry (db : List PluginRow) (name version : String) (settings : Value) :
    List PluginRow :=
  db.map (fun r =>
    if r.plugin = name ∧ r.version = version then { r with settings := some (pyStr settings) }
    else r)

/-- An element of the Python list returned by `plugin_entry_exists`: either
a version string or the literal `False` in the `[False]` sentinel. -/
inductive VersionEntry where
  | ver (s : String)
  | boolFalse
deriving DecidableEq

/-- `plugin_entry_exists`: all stored versions for the name, `[False]` when
there are none. -/
def plugin_entry_exists (db : List PluginRow) (name : String) : List VersionEntry :=
  let rows := db.filter (fun r => r.plugin == name)
  if rows.length > 0 then rows.map (fun r => VersionEntry.ver r.version)
  else [ VersionEntry.boolFalse ]

/-- `plugin_load_entry`: `rows[0][0]` raises an uncaught `IndexError` when
no row matches; a NULL settings blob is returned as `None`; otherwise the
blob is `ast.literal_eval`ed (uncaught `ValueError` when malformed). -/
def plugin_load_entry (db : List PluginRow) (name version : String) :
    Except PyError (Option Value) :=
  match db.filter (fun r => r.plugin == name && r.version == version) with
  | [] => Except.error PyError.indexError
  | r :: _ =>
    match r.settings with
    | none => Except.ok none
    | some text =>
      match decode text with
      | some v => Except.ok (some v)
      | none => Except.error PyError.valueError

/-! ### Applet store -/

/-- `applet_create_entry`: `REPLACE INTO applets(id, data) VALUES(?,?)` —
SQLite REPLACE deletes any row with the same primary key and inserts a
fresh row whose unsupplied `lastrun` column is NULL. -/
def applet_create_entry (db : List AppletRow) (applet_id : String) (d : Value) :
    List AppletRow :=
  db.filter (fun r => !(r.id == applet_id)) ++
    [ { id := applet_id, lastrun := none, data := pyStr d } ]

/-- `applet_load_entry`: `None` when no row matches, else
`ast.literal_eval(rows[0][0])` (uncaught `ValueError` when malformed). -/
def applet_load_entry (db : List AppletRow) (applet_id : String) :
    Except PyError (Option Value) :=
  match db.filter (fun r => r.id == applet_id) with
  | [] => Except.ok none
  | r :: _ =>
    match decode r.data with
    | some v => Except.ok (some v)
    | none => Except.error PyError.valueError

/-- `applet_delete_entry`: `DELETE FROM applets WHERE id = ?`. -/
def applet_delete_entry (db : List AppletRow) (applet_id : String) : List AppletRow :=
  db.filter (fun r => !(r.id == applet_id))

/-- `applet_update_lastrun`: `UPDATE applets SET lastrun = ? WHERE id = ?`
with `str(data)`; zero matched rows is not an error. -/
def applet_update_lastrun (db : List AppletRow) (applet_id : String) (d : Value) :
    List AppletRow :=
  db.map (fun r =>
    if r.id = applet_id then { r with lastrun := some (pyStr d) } else r)

/-! ### Support predicates for the parser correctness proof -/

/-- The text after a printed value inside a larger printed value starts (if
at all) with a separator or closer, never with a digit. -/
def delimHead : List Char → Prop
  | [] => True
  | c :: _ => c = ',' ∨ c = ']' ∨ c = rbrace ∨ c = ':'

/-- The remainder after a maximal digit run. -/
def notDigitHead : List Char → Prop
  | [] => True
  | c :: _ => c.isDigit = false

/-! ## Codec lemmas -/

theorem digitChar_facts (d : Nat) (hd : d < 10) :
    (digitChar d).isDigit = true ∧ (digitChar d).toNat = 48 + d := by
  interval_cases d <;> exact ⟨ by decide, by decide ⟩

theorem natDigits_mem (n : Nat) : ∀ c ∈ natDigits n, ∃ d, d < 10 ∧ c = digitChar d := by
  intro c hc
  unfold natDigits at hc
  by_cases hn : n = 0
  · simp [hn] at hc
    exact ⟨ 0, by omega, by rw [hc]; decide ⟩
  · simp [hn] at hc
    obtain ⟨ d, hd, hcd ⟩ := hc
    exact ⟨ d, Nat.digits_lt_base (by omega) hd, hcd.symm ⟩

theorem natDigits_ne_nil (n : Nat) : natDigits n ≠ [] := by
  unfold natDigits
  by_cases hn : n = 0
  · simp [hn]
  · simp [hn, Nat.digits_ne_nil_iff_ne_zero.mpr hn]

theorem foldr_digits_ofDigits (L : List Nat) :
    List.foldr (fun d acc => 10 * acc + d) 0 L = Nat.ofDigits 10 L := by
  induction L with
  | nil => simp [Nat.ofDigits]
  | cons hd tl ih => simp [Nat.ofDigits, ih]; ring

theorem foldl_digitChar (L : List Nat) (hL : ∀ d ∈ L, d < 10) (a : Nat) :
    List.foldl (fun a c => 10 * a + (c.toNat - 48)) a (L.map digitChar) =
      List.foldl (fun a d => 10 * a + d) a L := by
  induction L generalizing a with
  | nil => rfl
  | cons hd tl ih =>
    have hhd := (digitChar_facts hd (hL hd (by simp))).2
    simp only [List.map_cons, List.foldl_cons, hhd]
    rw [ih (fun d hd2 => hL d (by simp [hd2]))]
    congr 1
    omega

theorem parseNatChars_natDigits (n : Nat) : parseNatChars (natDigits n) = n := by
  unfold parseNatChars natDigits
  by_cases hn : n = 0
  · simp [hn]
  · simp only [hn, if_false]
    rw [foldl_digitChar _ (fun d hd => Nat.digits_lt_base (by omega) (List.mem_reverse.mp hd))]
    rw [List.foldl_reverse]
    have : List.foldr (fun x y => 10 * y + x) 0 (Nat.digits 10 n) =
        List.foldr (fun d acc => 10 * acc + d) 0 (Nat.digits 10 n) := rfl
    rw [this, foldr_digits_ofDigits, Nat.ofDigits_digits]

theorem takeUntilChar_append (q : Char) (s rest : List Char) (h : q ∉ s) :
    takeUntilChar q (s ++ q :: rest) = some (s, rest) := by
  induction s with
  | nil => simp [takeUntilChar]
  | cons c cs ih =>
    have hcq : ¬(c = q) := by
      intro hc
      exact h (by simp [hc])
    simp only [List.cons_append, takeUntilChar, if_neg hcq, List.append_eq]
    rw [ih (fun hq => h (by simp [hq]))]
    rfl

theorem takeDigitsFrom_append (l r : List Char) (hl : ∀ c ∈ l, c.isDigit = true)
    (hr : notDigitHead r) : takeDigitsFrom (l ++ r) = (l, r) := by
  induction l with
  | nil =>
    cases r with
    | nil => rfl
    | cons c cs =>
      have : c.isDigit = false := hr
      simp [takeDigitsFrom, this]
  | cons c cs ih =>
    have hc : c.isDigit = true := hl c (by simp)
    simp only [List.cons_append, takeDigitsFrom, hc, if_pos, List.append_eq]
    rw [ih (fun c2 h2 => hl c2 (by simp [h2]))]

theorem digitChar_conds (d : Nat) (hd : d < 10) :
    digitChar d ≠ squote ∧ digitChar d ≠ dquote ∧ digitChar d ≠ '[' ∧
    digitChar d ≠ lbrace ∧ digitChar d ≠ '-' ∧ (digitChar d).isDigit = true ∧
    digitChar d ≠ ']' ∧ digitChar d ≠ rbrace := by
  interval_cases d <;>
    exact ⟨ by decide, by decide, by decide, by decide, by decide, by decide, by decide,
      by decide ⟩

theorem natDigits_cons (n : Nat) : ∃ d ds, d < 10 ∧ natDigits n = digitChar d :: ds := by
  cases h : natDigits n with
  | nil => exact absurd h (natDigits_ne_nil n)
  | cons c ds =>
    have hc : c ∈ natDigits n := by rw [h]; simp
    obtain ⟨ d, hd, rfl ⟩ := natDigits_mem n c hc
    exact ⟨ d, ds, hd, rfl ⟩

theorem pyRepr_head (v : Value) :
    ∃ c cs, pyRepr v = c :: cs ∧ c ≠ ']' ∧ c ≠ rbrace := by
  cases v with
  | str s =>
    by_cases hs : squote ∈ s
    · exact ⟨ dquote, s ++ [ dquote ], by simp [pyRepr, strQuote, hs], by decide, by decide ⟩
    · exact ⟨ squote, s ++ [ squote ], by simp [pyRepr, strQuote, hs], by decide, by decide ⟩
  | int n =>
    by_cases hn : n < 0
    · exact ⟨ '-', natDigits n.natAbs, by simp [pyRepr, intChars, hn], by decide, by decide ⟩
    · obtain ⟨ d, ds, hd, hnd ⟩ := natDigits_cons n.toNat
      refine ⟨ digitChar d, ds, ?_, (digitChar_conds d hd).2.2.2.2.2.2.1,
        (digitChar_conds d hd).2.2.2.2.2.2.2 ⟩
      simp [pyRepr, intChars, hn, hnd]
  | bool b =>
    cases b
    · exact ⟨ 'F', [ 'a', 'l', 's', 'e' ], by simp [pyRepr], by decide, by decide ⟩
    · exact ⟨ 'T', [ 'r', 'u', 'e' ], by simp [pyRepr], by decide, by decide ⟩
  | list xs =>
    exact ⟨ '[', pyReprList xs ++ [ ']' ], by simp [pyRepr], by decide, by decide ⟩
  | dict kvs =>
    exact ⟨ lbrace, pyReprDict kvs ++ [ rbrace ], by simp [pyRepr], by decide, by decide ⟩

theorem pyRepr_nonempty (v : Value) : 1 ≤ (pyRepr v).length := by
  obtain ⟨ c, cs, h, -, - ⟩ := pyRepr_head v
  rw [h]
  simp

theorem delim_not_digit (rest : List Char) (h : delimHead rest) : notDigitHead rest := by
  cases rest with
  | nil => trivial
  | cons c cs =>
    rcases h with h | h | h | h <;> subst h <;> exact (by decide : (',' : Char).isDigit = false)

set_option maxHeartbeats 1000000

theorem parse_sound (fuel : Nat) :
    (∀ v rest, wf v = true → (pyRepr v).length ≤ fuel → delimHead rest →
      parseVal fuel (pyRepr v ++ rest) = some (v, rest)) ∧
    (∀ v vs rest, wfList (v :: vs) = true → (pyReprList (v :: vs)).length < fuel →
      parseListTail fuel (pyReprList (v :: vs) ++ ']' :: rest) = some (v :: vs, rest)) ∧
    (∀ k v kvs rest, wfDict ((k, v) :: kvs) = true → (pyReprDict ((k, v) :: kvs)).length < fuel →
      parseDictTail fuel (pyReprDict ((k, v) :: kvs) ++ rbrace :: rest) = some ((k, v) :: kvs, rest)) := by
  induction fuel with
  | zero =>
    refine ⟨ fun v rest _ hlen _ => absurd hlen (by have := pyRepr_nonempty v; omega),
      fun v vs rest _ hlen => absurd hlen (by omega),
      fun k v kvs rest _ hlen => absurd hlen (by omega) ⟩
  | succ m ih =>
    obtain ⟨ ih1, ih2, ih3 ⟩ := ih
    refine ⟨ ?_, ?_, ?_ ⟩
    · -- parseVal on a printed value
      intro v rest hwf hlen hdel
      cases v with
      | str s =>
        have hq : strQuote s ∉ s := by
          unfold strQuote
          simp only [wf] at hwf
          by_cases hs : squote ∈ s
          · simp only [if_pos hs]
            intro hd
            simp [hs, hd] at hwf
          · simp only [if_neg hs]
            exact hs
        by_cases hs : squote ∈ s
        · have hqd : strQuote s = dquote := by simp [strQuote, hs]
          rw [hqd] at hq
          have e1 : pyRepr (Value.str s) ++ rest = dquote :: (s ++ dquote :: rest) := by
            simp [pyRepr, strQuote, hs]
          rw [e1]
          simp only [parseVal]
          rw [if_pos trivial, takeUntilChar_append dquote s rest hq]
          rfl
        · have hqd : strQuote s = squote := by simp [strQuote, hs]
          rw [hqd] at hq
          have e1 : pyRepr (Value.str s) ++ rest = squote :: (s ++ squote :: rest) := by
            simp [pyRepr, strQuote, hs]
          rw [e1]
          simp only [parseVal]
          rw [if_pos trivial, takeUntilChar_append squote s rest hq]
          rfl
      | int n =>
        have hdigits : ∀ k : Nat, ∀ c ∈ natDigits k, c.isDigit = true := by
          intro k c hc
          obtain ⟨ d, hd, rfl ⟩ := natDigits_mem k c hc
          exact (digitChar_conds d hd).2.2.2.2.2.1
        by_cases hn : n < 0
        · have e1 : pyRepr (Value.int n) ++ rest = '-' :: (natDigits n.natAbs ++ rest) := by
            simp [pyRepr, intChars, hn]
          rw [e1]
          simp only [parseVal]
          rw [takeDigitsFrom_append _ _ (hdigits n.natAbs) (delim_not_digit rest hdel)]
          simp only [if_neg (natDigits_ne_nil n.natAbs)]
          rw [parseNatChars_natDigits]
          have e2 : -(n.natAbs : Int) = n := by omega
          rw [e2]
          simp [squote, dquote, lbrace, rbrace]
        · obtain ⟨ d, ds, hd, hnd ⟩ := natDigits_cons n.toNat
          obtain ⟨ q1, q2, q3, q4, q5, q6, q7, q8 ⟩ := digitChar_conds d hd
          have e1 : pyRepr (Value.int n) ++ rest = digitChar d :: (ds ++ rest) := by
            simp [pyRepr, intChars, hn, hnd]
          rw [e1]
          simp only [parseVal]
          rw [if_neg q1, if_neg q2, if_neg q3, if_neg q4, if_neg q5, if_pos q6]
          have e2 : digitChar d :: (ds ++ rest) = natDigits n.toNat ++ rest := by
            rw [hnd]; simp
          rw [e2]
          rw [takeDigitsFrom_append _ _ (hdigits n.toNat) (delim_not_digit rest hdel)]
          rw [parseNatChars_natDigits]
          have e3 : ((n.toNat : Nat) : Int) = n := by omega
          rw [e3]
      | bool b =>
        cases b
        · have e1 : pyRepr (Value.bool false) ++ rest =
              'F' :: 'a' :: 'l' :: 's' :: 'e' :: rest := by
            simp [pyRepr]
          rw [e1]
          simp [parseVal, squote, dquote, lbrace, rbrace]
        · have e1 : pyRepr (Value.bool true) ++ rest = 'T' :: 'r' :: 'u' :: 'e' :: rest := by
            simp [pyRepr]
          rw [e1]
          simp [parseVal, squote, dquote, lbrace, rbrace]
      | list xs =>
        cases xs with
        | nil =>
          have e1 : pyRepr (Value.list []) ++ rest = '[' :: ']' :: rest := by
            simp [pyRepr, pyReprList]
          rw [e1]
          simp [parseVal, squote, dquote, lbrace, rbrace]
        | cons v vs =>
          obtain ⟨ c1, cs1, hv, hne1, hne2 ⟩ := pyRepr_head v
          have hcons : ∃ t, pyReprList (v :: vs) = c1 :: t := by
            cases vs with
            | nil => exact ⟨ cs1, by simp [pyReprList, hv] ⟩
            | cons w ws => exact ⟨ cs1 ++ ',' :: ' ' :: pyReprList (w :: ws), by
                simp [pyReprList, hv] ⟩
          obtain ⟨ t, ht ⟩ := hcons
          have e1 : pyRepr (Value.list (v :: vs)) ++ rest =
              '[' :: (c1 :: (t ++ ']' :: rest)) := by
            simp [pyRepr, ht]
          rw [e1]
          simp only [parseVal]
          rw [if_pos trivial]
          simp only [if_neg hne1]
          have e3 : c1 :: (t ++ ']' :: rest) = pyReprList (v :: vs) ++ ']' :: rest := by
            rw [ht]; simp
          rw [e3]
          have hwfl : wfList (v :: vs) = true := by simp only [wf] at hwf; exact hwf
          have hlen2 : (pyReprList (v :: vs)).length < m := by
            simp [pyRepr] at hlen; omega
          rw [ih2 v vs rest hwfl hlen2]
          rfl
      | dict kvs =>
        cases kvs with
        | nil =>
          have e1 : pyRepr (Value.dict []) ++ rest = lbrace :: rbrace :: rest := by
            simp [pyRepr, pyReprDict]
          rw [e1]
          simp [parseVal, squote, dquote, lbrace, rbrace]
        | cons kv kvs2 =>
          obtain ⟨ k, v ⟩ := kv
          obtain ⟨ c1, cs1, hk, hne1, hne2 ⟩ := pyRepr_head k
          have hcons : ∃ t, pyReprDict ((k, v) :: kvs2) = c1 :: t := by
            cases kvs2 with
            | nil => exact ⟨ cs1 ++ ':' :: ' ' :: pyRepr v, by simp [pyReprDict, hk] ⟩
            | cons kv2 kvs3 => exact ⟨ cs1 ++ ':' :: ' ' :: pyRepr v ++
                ',' :: ' ' :: pyReprDict (kv2 :: kvs3), by
                obtain ⟨ k2, v2 ⟩ := kv2
                simp [pyReprDict, hk] ⟩
          obtain ⟨ t, ht ⟩ := hcons
          have e1 : pyRepr (Value.dict ((k, v) :: kvs2)) ++ rest =
              lbrace :: (c1 :: (t ++ rbrace :: rest)) := by
            simp [pyRepr, ht]
          rw [e1]
          simp only [parseVal]
          rw [if_pos trivial]
          simp only [if_neg hne2]
          have e3 : c1 :: (t ++ rbrace :: rest) = pyReprDict ((k, v) :: kvs2) ++
              rbrace :: rest := by
            rw [ht]; simp
          rw [e3]
          have hwfd : wfDict ((k, v) :: kvs2) = true := by simp only [wf] at hwf; exact hwf
          have hlen2 : (pyReprDict ((k, v) :: kvs2)).length < m := by
            simp [pyRepr] at hlen; omega
          rw [ih3 k v kvs2 rest hwfd hlen2]
          rfl
    · -- parseListTail on printed elements
      intro v vs rest hwf hlen
      have hwf2 := hwf
      simp only [wfList, Bool.and_eq_true] at hwf2
      obtain ⟨ hwfv, hwfvs ⟩ := hwf2
      cases vs with
      | nil =>
        have e1 : pyReprList [v] ++ ']' :: rest = pyRepr v ++ ']' :: rest := by
          simp [pyReprList]
        rw [e1]
        simp only [parseListTail]
        have hlv : (pyRepr v).length ≤ m := by
          simp [pyReprList] at hlen; omega
        rw [ih1 v (']' :: rest) hwfv hlv (by simp [delimHead])]
        simp
      | cons w ws =>
        have e1 : pyReprList (v :: w :: ws) ++ ']' :: rest =
            pyRepr v ++ (',' :: ' ' :: (pyReprList (w :: ws) ++ ']' :: rest)) := by
          simp [pyReprList]
        rw [e1]
        simp only [parseListTail]
        have hlv : (pyRepr v).length ≤ m := by
          simp [pyReprList] at hlen; omega
        rw [ih1 v _ hwfv hlv (by simp [delimHead])]
        have hlen2 : (pyReprList (w :: ws)).length < m := by
          have := pyRepr_nonempty v
          simp [pyReprList] at hlen ⊢; omega
        simp [ih2 w ws rest hwfvs hlen2, squote, dquote, lbrace, rbrace]
    · -- parseDictTail on printed pairs
      intro k v kvs rest hwf hlen
      have hwf2 := hwf
      simp only [wfDict, Bool.and_eq_true] at hwf2
      obtain ⟨ ⟨ ⟨ hsk, hwfk ⟩, hwfv ⟩, hwfkvs ⟩ := hwf2
      cases kvs with
      | nil =>
        have e1 : pyReprDict [(k, v)] ++ rbrace :: rest =
            pyRepr k ++ (':' :: ' ' :: (pyRepr v ++ rbrace :: rest)) := by
          simp [pyReprDict]
        rw [e1]
        simp only [parseDictTail]
        have hlk : (pyRepr k).length ≤ m := by
          simp [pyReprDict] at hlen; omega
        have hlv : (pyRepr v).length ≤ m := by
          have := pyRepr_nonempty k
          simp [pyReprDict] at hlen; omega
        rw [ih1 k _ hwfk hlk (by simp [delimHead])]
        simp [ih1 v (rbrace :: rest) hwfv hlv (by simp [delimHead])]
      | cons kv2 kvs3 =>
        obtain ⟨ k2, v2 ⟩ := kv2
        have e1 : pyReprDict ((k, v) :: (k2, v2) :: kvs3) ++ rbrace :: rest =
            pyRepr k ++ (':' :: ' ' :: (pyRepr v ++ (',' :: ' ' ::
              (pyReprDict ((k2, v2) :: kvs3) ++ rbrace :: rest)))) := by
          simp [pyReprDict]
        rw [e1]
        simp only [parseDictTail]
        have hlk : (pyRepr k).length ≤ m := by
          simp [pyReprDict] at hlen; omega
        have hlv : (pyRepr v).length ≤ m := by
          have := pyRepr_nonempty k
          simp [pyReprDict] at hlen; omega
        have hlen2 : (pyReprDict ((k2, v2) :: kvs3)).length < m := by
          have h1 := pyRepr_nonempty k
          have h2 := pyRepr_nonempty v
          simp [pyReprDict] at hlen ⊢; omega
        rw [ih1 k _ hwfk hlk (by simp [delimHead])]
        simp [ih1 v (',' :: ' ' :: (pyReprDict ((k2, v2) :: kvs3) ++ rbrace :: rest))
            hwfv hlv (by simp [delimHead]),
          ih3 k2 v2 kvs3 rest hwfkvs hlen2,
          (show (',' : Char) ≠ rbrace from by decide)]

theorem decode_pyRepr (v : Value) (h : wf v = true) : decode (pyRepr v) = some v := by
  unfold decode
  have hs := (parse_sound ((pyRepr v).length + 1)).1 v [] h (by omega) trivial
  rw [List.append_nil] at hs
  rw [hs]

theorem decode_pyStr (v : Value) (hns : isStrVal v = false) (h : wf v = true) :
    decode (pyStr v) = some v := by
  cases v with
  | str s => simp [isStrVal] at hns
  | int n => exact decode_pyRepr _ h
  | bool b => exact decode_pyRepr _ h
  | list xs => exact decode_pyRepr _ h
  | dict kvs => exact decode_pyRepr _ h

/-! ## Settings-table lemmas -/

theorem lookupFirst_append_some (l1 l2 : List (String × String)) (k : String) (v : String)
    (h : lookupFirst l1 k = some v) : lookupFirst (l1 ++ l2) k = some v := by
  induction l1 with
  | nil => simp [lookupFirst] at h
  | cons kv rest ih =>
    by_cases hk : kv.1 = k
    · simp only [lookupFirst, if_pos hk] at h
      simp only [List.cons_append, lookupFirst, if_pos hk]
      exact h
    · simp only [lookupFirst, if_neg hk] at h
      simp only [List.cons_append, lookupFirst, if_neg hk]
      exact ih h

theorem lookupFirst_append_none (l1 l2 : List (String × String)) (k : String)
    (h : lookupFirst l1 k = none) : lookupFirst (l1 ++ l2) k = lookupFirst l2 k := by
  induction l1 with
  | nil => simp
  | cons kv rest ih =>
    by_cases hk : kv.1 = k
    · simp [lookupFirst, if_pos hk] at h
    · simp only [lookupFirst, if_neg hk] at h
      simp only [List.cons_append, lookupFirst, if_neg hk]
      exact ih h

theorem lookupFirst_map_set (tbl : List (String × String)) (k v0 : String) :
    lookupFirst (tbl.map (fun kv => if kv.1 = k then (kv.1, v0) else kv)) k =
      (lookupFirst tbl k).map (fun _ => v0) := by
  induction tbl with
  | nil => rfl
  | cons kv rest ih =>
    by_cases hk : kv.1 = k
    · simp [lookupFirst, hk]
    · simp [lookupFirst, hk, ih]

theorem lookupFirst_map_set_ne (tbl : List (String × String)) (k v0 k2 : String)
    (hne : k2 ≠ k) :
    lookupFirst (tbl.map (fun kv => if kv.1 = k then (kv.1, v0) else kv)) k2 =
      lookupFirst tbl k2 := by
  induction tbl with
  | nil => rfl
  | cons kv rest ih =>
    by_cases hk : kv.1 = k
    · have h2 : ¬(kv.1 = k2) := by rw [hk]; exact fun h => hne h.symm
      simp only [List.map_cons, if_pos hk, lookupFirst, ih]
      rw [if_neg (by simpa using h2), if_neg h2]
    · simp only [List.map_cons, if_neg hk, lookupFirst, ih]

theorem lookupFirst_none_of_any_false (tbl : List (String × String)) (k : String)
    (h : tbl.any (fun kv => kv.1 == k) = false) : lookupFirst tbl k = none := by
  induction tbl with
  | nil => rfl
  | cons kv rest ih =>
    simp only [List.any_cons, Bool.or_eq_false_iff, beq_eq_false_iff_ne] at h
    simp only [lookupFirst, if_neg h.1]
    exact ih (by simpa using h.2)

theorem lookupFirst_some_of_any_true (tbl : List (String × String)) (k : String)
    (h : tbl.any (fun kv => kv.1 == k) = true) : ∃ v, lookupFirst tbl k = some v := by
  induction tbl with
  | nil => simp at h
  | cons kv rest ih =>
    by_cases hk : kv.1 = k
    · exact ⟨ kv.2, by simp [lookupFirst, if_pos hk] ⟩
    · simp only [List.any_cons, Bool.or_eq_true_iff, beq_iff_eq] at h
      obtain ⟨ v, hv ⟩ := ih (by
        rcases h with h | h
        · exact absurd h hk
        · simpa using h)
      exact ⟨ v, by simp [lookupFirst, if_neg hk, hv] ⟩

theorem lookupFirst_dictSet_self (m : List (String × String)) (k v : String) :
    lookupFirst (dictSet m k v) k = some v := by
  unfold dictSet
  by_cases hany : m.any (fun kv => kv.1 == k) = true
  · rw [if_pos hany, lookupFirst_map_set]
    obtain ⟨ w, hw ⟩ := lookupFirst_some_of_any_true m k hany
    rw [hw]
    rfl
  · rw [if_neg hany]
    rw [lookupFirst_append_none _ _ _
      (lookupFirst_none_of_any_false m k (Bool.eq_false_iff.mpr hany))]
    simp [lookupFirst]

theorem lookupFirst_dictSet_ne (m : List (String × String)) (k v k2 : String)
    (hne : k2 ≠ k) : lookupFirst (dictSet m k v) k2 = lookupFirst m k2 := by
  unfold dictSet
  by_cases hany : m.any (fun kv => kv.1 == k) = true
  · rw [if_pos hany, lookupFirst_map_set_ne _ _ _ _ hne]
  · rw [if_neg hany]
    cases hl : lookupFirst m k2 with
    | some w => exact lookupFirst_append_some _ _ _ _ hl
    | none =>
      rw [lookupFirst_append_none _ _ _ hl]
      have h2 : ¬((k, v).1 = k2) := fun h => hne h.symm
      simp [lookupFirst, h2, hl]

/-! ## Claims C4 and C5: install-state transitions and idempotent seeding -/

/-- C4: before the settings table exists, `new_install()` returns the `None`
sentinel (Unknown, not false); immediately after `connect()` seeds a pristine
store, `new_install()` returns `true`; after `new_install(update=True)`
("markNotNew"), it returns `false`. -/
theorem claim_C4_new_install_transitions (meta : List (String × String)) (db1 : DBState)
    (hver : (lookupFirst meta "version").isSome = true)
    (hconn : connect meta emptyDB = Except.ok db1) :
    new_install emptyDB = Except.ok none ∧
    new_install db1 = Except.ok (some true) ∧
    new_install (new_install_update db1) = Except.ok (some false) := by
  have h0 : new_install emptyDB = Except.ok none := rfl
  refine ⟨ h0, ?_ ⟩
  obtain ⟨ x, hx ⟩ := Option.isSome_iff_exists.mp hver
  have hxu : lookupFirst (dictSet meta "new_install" "1" ++ settingsDefaults) "version"
      = some x := by
    apply lookupFirst_append_some
    rw [lookupFirst_dictSet_ne _ _ _ _ (by decide)]
    exact hx
  have hni : lookupFirst (dictSet meta "new_install" "1" ++ settingsDefaults) "new_install"
      = some "1" :=
    lookupFirst_append_some _ _ _ _ (lookupFirst_dictSet_self _ _ _)
  rw [connect, h0] at hconn
  simp only [hxu] at hconn
  injection hconn with h
  subst h
  constructor
  · simp only [new_install, hni]
    rfl
  · have hni0 : lookupFirst ((dictSet meta "new_install" "1").map
        (fun kv => if kv.1 = "new_install" then (kv.1, "0") else kv)) "new_install"
        = some "0" := by
      rw [lookupFirst_map_set, lookupFirst_dictSet_self]
      rfl
    have hni2 := lookupFirst_append_some _
      (settingsDefaults.map (fun kv => if kv.1 = "new_install" then (kv.1, "0") else kv))
      _ _ hni0
    simp only [new_install_update, new_install, List.map_append, hni2]
    rfl

/-- C5: running `connect()` a second time with the same process metadata
leaves the database exactly as after the first run — the seeding block is
guarded by `new_install() == None`, the `CREATE TABLE IF NOT EXISTS`
statements change nothing, and the version check only warns. -/
theorem claim_C5_connect_idempotent (meta : List (String × String)) (db db1 : DBState)
    (h : connect meta db = Except.ok db1) : connect meta db1 = Except.ok db1 := by
  cases hni : new_install db with
  | error e =>
    rw [connect, hni] at h
    exact absurd h (by simp)
  | ok r =>
    rw [connect, hni] at h
    cases r with
    | none =>
      simp only [] at h
      cases hver : lookupFirst (dictSet meta "new_install" "1" ++ settingsDefaults)
          "version" with
      | none =>
        simp only [hver] at h
        exact absurd h (by simp)
      | some x =>
        simp only [hver] at h
        injection h with h2
        subst h2
        have hu : lookupFirst (dictSet meta "new_install" "1" ++ settingsDefaults)
            "new_install" = some "1" :=
          lookupFirst_append_some _ _ _ _ (lookupFirst_dictSet_self _ _ _)
        rw [connect]
        simp only [new_install, hu, Option.getD_some, hver]
    | some b =>
      simp only [] at h
      rw [new_install] at hni
      cases hu : db.ultrasonics with
      | none =>
        simp only [hu] at hni
        exact absurd hni (by simp)
      | some tbl =>
        simp only [hu] at hni
        cases hw : lookupFirst tbl "new_install" with
        | none =>
          simp only [hw] at hni
          exact absurd hni (by simp)
        | some w =>
          simp only [hu, Option.getD_some] at h
          cases hver : lookupFirst tbl "version" with
          | none =>
            simp only [hver] at h
            exact absurd h (by simp)
          | some x =>
            simp only [hver] at h
            injection h with h2
            subst h2
            rw [connect]
            simp only [new_install, hw, Option.getD_some, hver]

/-! ## Claim C6: settings merge -/

theorem gAcc_default : global_settings = gAcc "https://ultrasonics-api.herokuapp.com/api/" := by
  rfl

theorem gsl_step (kv : String × String) (x : String) :
    (if (["api_url"] : List String).contains kv.1 then
      (gAcc x).map (fun item =>
        if item.name = some kv.1 then { item with value := kv.2 } else item)
    else gAcc x) = gAcc (if kv.1 = "api_url" then kv.2 else x) := by
  by_cases hk : kv.1 = "api_url"
  · simp [gAcc, global_settings, hk]
  · have hb : (kv.1 == "api_url") = false := beq_eq_false_iff_ne.mpr hk
    simp [List.contains, hb, hk]

theorem gsl_fold (tbl : List (String × String)) :
    ∀ x : String,
      tbl.foldl (fun acc kv =>
        if (["api_url"] : List String).contains kv.1 then
          acc.map (fun item =>
            if item.name = some kv.1 then { item with value := kv.2 } else item)
        else acc) (gAcc x) = gAcc (lookupLastD tbl "api_url" x) := by
  induction tbl with
  | nil => intro x; rfl
  | cons kv rest ih =>
    intro x
    rw [List.foldl_cons, gsl_step]
    rw [ih]
    rfl

theorem foldl_dictSet_append (tbl : List (String × String)) :
    ∀ acc : List (String × String), (((acc ++ tbl).map Prod.fst).Nodup) →
      tbl.foldl (fun d kv => dictSet d kv.1 kv.2) acc = acc ++ tbl := by
  induction tbl with
  | nil => intro acc _; simp
  | cons kv rest ih =>
    intro acc h
    have hk : kv.1 ∉ acc.map Prod.fst := by
      simp only [List.map_append, List.map_cons, List.nodup_append] at h
      intro hmem
      exact h.2.2 hmem (by simp)
    have hany : ¬(acc.any (fun r => r.1 == kv.1) = true) := by
      simp only [List.any_eq_true, beq_iff_eq]
      rintro ⟨ r, hr, hrk ⟩
      exact hk (by
        rw [← hrk]
        exact List.mem_map_of_mem Prod.fst hr)
    have hds : dictSet acc kv.1 kv.2 = acc ++ [kv] := by
      unfold dictSet
      rw [if_neg hany]
    rw [List.foldl_cons, hds, ih (acc ++ [kv]) (by
      have e : (acc ++ [kv]) ++ rest = acc ++ kv :: rest := by simp
      rw [e]
      exact h)]
    simp

/-- C6: for every state of the settings table, the non-raw
`global_settings_load` equals the spec-side merge — a copy of the canonical
schema in which each configurable descriptor carries the stored value for
its name (its compiled-in default when none is stored), display descriptors
are untouched, and stored keys outside the schema (e.g. `version`,
`new_install`) do not appear; and `global_settings_load(raw=True)` returns
the stored rows verbatim (as a dict, so assuming no duplicate keys). -/
theorem claim_C6_settings_merge (tbl : List (String × String)) :
    global_settings_load tbl = global_settings_load_spec tbl ∧
    ((tbl.map Prod.fst).Nodup → global_settings_load_raw tbl = tbl) := by
  constructor
  · have h1 : global_settings_load tbl =
        gAcc (lookupLastD tbl "api_url" "https://ultrasonics-api.herokuapp.com/api/") := by
      simp only [global_settings_load]
      rw [show ((global_settings.filter (fun i => dbTypes.contains i.type)).map
        (fun i => i.name.getD "")) = ["api_url"] from rfl]
      rw [gAcc_default]
      exact gsl_fold tbl _
    rw [h1]
    simp [global_settings_load_spec, global_settings, gAcc, dbTypes]
  · intro h
    unfold global_settings_load_raw
    have h2 := foldl_dictSet_append tbl [] (by simpa using h)
    simpa using h2

/-! ## Claim C7: plugin version lookup -/

/-- C7: after two `plugin_create_entry` calls for the same name,
`plugin_entry_exists` returns every stored version for that name — the
previously stored ones followed by both new ones; for a name with no rows it
returns the `[False]` sentinel, not an empty list. -/
theorem claim_C7_plugin_versions :
    (∀ (db : List PluginRow) (name v1 v2 : String),
      plugin_entry_exists (plugin_create_entry (plugin_create_entry db name v1) name v2)
          name =
        ((db.filter (fun r => r.plugin == name)).map (fun r => VersionEntry.ver r.version)) ++
          [ VersionEntry.ver v1, VersionEntry.ver v2 ]) ∧
    (∀ (db : List PluginRow) (name : String),
      (∀ r ∈ db, r.plugin ≠ name) →
        plugin_entry_exists db name = [ VersionEntry.boolFalse ]) := by
  constructor
  · intro db name v1 v2
    simp only [plugin_entry_exists, plugin_create_entry, List.filter_append]
    simp [List.length_append]
  · intro db name h
    have hf : db.filter (fun r => r.plugin == name) = [] := by
      rw [List.filter_eq_nil_iff]
      intro r hr
      simp only [beq_iff_eq]
      exact h r hr
    simp [plugin_entry_exists, hf]

/-- Witness for C7 at the spec's own example. -/
theorem claim_C7_witness :
    plugin_entry_exists (plugin_create_entry (plugin_create_entry [] "spotify" "1.0")
        "spotify" "2.0") "spotify" =
      [ VersionEntry.ver "1.0", VersionEntry.ver "2.0" ] ∧
    plugin_entry_exists [] "missing" = [ VersionEntry.boolFalse ] :=
  ⟨ by rw [claim_C7_plugin_versions.1 [] "spotify" "1.0" "2.0"]; rfl,
    claim_C7_plugin_versions.2 [] "missing" (by simp) ⟩

/-! ## Claim C8: missing-applet lookup -/

/-- C8: `applet_load_entry` returns the `None` result (not an exception) for
an id with no matching row, and deleting an id guarantees a subsequent load
returns `None`. -/
theorem claim_C8_missing_applet (db : List AppletRow) (applet_id : String) :
    ((∀ r ∈ db, r.id ≠ applet_id) → applet_load_entry db applet_id = Except.ok none) ∧
    applet_load_entry (applet_delete_entry db applet_id) applet_id = Except.ok none := by
  constructor
  · intro h
    unfold applet_load_entry
    have hf : db.filter (fun r => r.id == applet_id) = [] := by
      rw [List.filter_eq_nil_iff]
      intro r hr
      simp only [beq_iff_eq]
      exact h r hr
    rw [hf]
  · unfold applet_load_entry applet_delete_entry
    have hf : (db.filter (fun r => !(r.id == applet_id))).filter
        (fun r => r.id == applet_id) = [] := by
      rw [List.filter_eq_nil_iff]
      intro r hr
      simp only [List.mem_filter, Bool.not_eq_true'] at hr
      simp [hr.2]
    rw [hf]

/-- Witness for C8: loads from an empty store and after deletion. -/
theorem claim_C8_witness :
    applet_load_entry ([] : List AppletRow) "a1" = Except.ok none ∧
    applet_load_entry (applet_delete_entry
      [ { id := "a1", lastrun := none, data := pyStr (Value.int 1) } ] "a1") "a1" =
      Except.ok none :=
  ⟨ (claim_C8_missing_applet [] "a1").1 (by simp),
    (claim_C8_missing_applet
      [ { id := "a1", lastrun := none, data := pyStr (Value.int 1) } ] "a1").2 ⟩

/-! ## Claim C9: plugin_load_entry raises on a missing (name, version) -/

/-- C9: with no row matching both name and version, `plugin_load_entry`
evaluates `rows[0][0]` on an empty result set; the `IndexError` is not a
`sqlite3.Error`, so it propagates to the caller instead of a `None`
result. -/
theorem claim_C9_plugin_load_missing_raises (db : List PluginRow) (name version : String)
    (h : ∀ r ∈ db, ¬(r.plugin = name ∧ r.version = version)) :
    plugin_load_entry db name version = Except.error PyError.indexError := by
  unfold plugin_load_entry
  have hf : db.filter (fun r => r.plugin == name && r.version == version) = [] := by
    rw [List.filter_eq_nil_iff]
    intro r hr
    simp only [Bool.and_eq_true, beq_iff_eq]
    exact fun hc => h r hr ⟨ hc.1, hc.2 ⟩
  rw [hf]

/-- Witness for C9: loading a never-created plugin propagates IndexError. -/
theorem claim_C9_witness :
    plugin_load_entry ([] : List PluginRow) "spotify" "1.0" =
      Except.error PyError.indexError :=
  claim_C9_plugin_load_missing_raises [] "spotify" "1.0" (by simp)

/-! ## Claim C10: lastrun update for a missing applet id is a silent no-op -/

/-- C10: `applet_update_lastrun` for an id with no row matches zero rows:
it raises nothing and leaves the applets table unchanged. -/
theorem claim_C10_lastrun_missing_noop (db : List AppletRow) (applet_id : String) (d : Value)
    (h : ∀ r ∈ db, r.id ≠ applet_id) :
    applet_update_lastrun db applet_id d = db := by
  unfold applet_update_lastrun
  induction db with
  | nil => rfl
  | cons r rest ih =>
    simp only [List.map_cons]
    rw [if_neg (h r (by simp)), ih (fun r2 hr2 => h r2 (by simp [hr2]))]

/-- Witness for C10: a lastrun write for an absent id is dropped. -/
theorem claim_C10_witness :
    applet_update_lastrun [ { id := "a1", lastrun := none, data := pyStr (Value.int 1) } ]
      "zz" (Value.int 7) =
      [ { id := "a1", lastrun := none, data := pyStr (Value.int 1) } ] :=
  claim_C10_lastrun_missing_noop _ _ _ (by decide)

/-! ## Witnesses for C4 and C5 -/

/-- Witness for C4 with metadata `[("version", "1.0")]`. -/
theorem claim_C4_witness :
    new_install emptyDB = Except.ok none ∧
    new_install seededDB = Except.ok (some true) ∧
    new_install (new_install_update seededDB) = Except.ok (some false) :=
  claim_C4_new_install_transitions [ ("version", "1.0") ] seededDB (by rfl) (by rfl)

/-- Witness for C5: a second `connect` leaves the seeded state unchanged. -/
theorem claim_C5_witness :
    connect [ ("version", "1.0") ] seededDB = Except.ok seededDB :=
  claim_C5_connect_idempotent [ ("version", "1.0") ] emptyDB seededDB (by rfl)

/-- Witness for C6 at the spec's example row. -/
theorem claim_C6_witness :
    global_settings_load [ ("api_url", "https://custom/") ] =
      global_settings_load_spec [ ("api_url", "https://custom/") ] ∧
    global_settings_load_raw [ ("api_url", "https://custom/") ] =
      [ ("api_url", "https://custom/") ] :=
  ⟨ (claim_C6_settings_merge [ ("api_url", "https://custom/") ]).1,
    (claim_C6_settings_merge [ ("api_url", "https://custom/") ]).2 (by simp) ⟩

/-! ## Claim C1: the applet-plan upsert clobbers lastrun -/

/-- C1: the non-clobber property FAILS on the code. `applet_create_entry`
uses `REPLACE INTO applets(id, data)`, which deletes the conflicting row and
inserts a fresh one with `lastrun` NULL.  After
`create("a1", [1]); update_lastrun("a1", 7); create("a1", [2])` the plan
reads back as `[2]` but the stored `lastrun` is NULL, not the encoded `7`
the claim requires. -/
theorem claim_C1_replace_clobbers_lastrun :
    applet_load_entry (applet_create_entry (applet_update_lastrun
        (applet_create_entry [] "a1" (Value.list [ Value.int 1 ])) "a1" (Value.int 7))
      "a1" (Value.list [ Value.int 2 ])) "a1"
      = Except.ok (some (Value.list [ Value.int 2 ])) ∧
    applet_create_entry (applet_update_lastrun
        (applet_create_entry [] "a1" (Value.list [ Value.int 1 ])) "a1" (Value.int 7))
      "a1" (Value.list [ Value.int 2 ])
      = [ { id := "a1", lastrun := none, data := pyStr (Value.list [ Value.int 2 ]) } ] := by
  have hdb : applet_create_entry (applet_update_lastrun
      (applet_create_entry [] "a1" (Value.list [ Value.int 1 ])) "a1" (Value.int 7))
      "a1" (Value.list [ Value.int 2 ])
      = [ { id := "a1", lastrun := none, data := pyStr (Value.list [ Value.int 2 ]) } ] := rfl
  refine ⟨ ?_, hdb ⟩
  rw [hdb]
  have hd : decode (pyStr (Value.list [ Value.int 2 ])) = some (Value.list [ Value.int 2 ]) :=
    decode_pyStr _ rfl (by simp [wf, wfList])
  unfold applet_load_entry
  simp [hd]

/-! ## Claim C2: codec round-trip -/

/-- C2 counterexample: the claimed total round-trip fails for a top-level
string.  `str("hi")` is the unquoted text `hi`, which `ast.literal_eval`
rejects (no parse), so `decode (encode "hi")` is not `some "hi"`. -/
theorem claim_C2_counterexample :
    ¬ (decode (pyStr (Value.str [ 'h', 'i' ])) = some (Value.str [ 'h', 'i' ])) := by
  intro h
  have hn : decode (pyStr (Value.str [ 'h', 'i' ])) = none := by
    simp [decode, pyStr, parseVal, squote, dquote, lbrace, rbrace]
  rw [hn] at h
  exact Option.noConfusion h

/-- C2 (amended): `decode (encode v) = v` holds for every well-formed
representable value whose top level is not a bare string — numbers,
booleans, lists and dicts, with strings allowed anywhere inside (where
`str` quotes them); a top-level string is emitted unquoted by `str` and
does not round-trip. -/
theorem claim_C2_roundtrip (v : Value) (hs : isStrVal v = false) (hwf : wf v = true) :
    decode (pyStr v) = some v :=
  decode_pyStr v hs hwf

/-- Witness for C2 on a nested list/dict/string/int/bool value. -/
theorem claim_C2_roundtrip_witness :
    isStrVal (Value.dict [ (Value.str [ 'a' ],
      Value.list [ Value.int (-3), Value.bool true, Value.str [ 'h', 'i' ] ]) ]) = false ∧
    wf (Value.dict [ (Value.str [ 'a' ],
      Value.list [ Value.int (-3), Value.bool true, Value.str [ 'h', 'i' ] ]) ]) = true ∧
    decode (pyStr (Value.dict [ (Value.str [ 'a' ],
      Value.list [ Value.int (-3), Value.bool true, Value.str [ 'h', 'i' ] ]) ])) =
      some (Value.dict [ (Value.str [ 'a' ],
        Value.list [ Value.int (-3), Value.bool true, Value.str [ 'h', 'i' ] ]) ]) :=
  ⟨ rfl, by simp [wf, wfList, wfDict, scalarKey, squote, dquote],
    claim_C2_roundtrip (Value.dict [ (Value.str [ 'a' ],
      Value.list [ Value.int (-3), Value.bool true, Value.str [ 'h', 'i' ] ]) ])
      rfl (by simp [wf, wfList, wfDict, scalarKey, squote, dquote]) ⟩

/-! ## Claim C3: malformed records -/

/-- C3 counterexample: a stored blob that does not parse makes
`applet_load_entry` end in the (uncaught) `ValueError` of
`ast.literal_eval` — the operation does NOT return a no-value result; only
`sqlite3.Error` is caught at the operation boundary. -/
theorem claim_C3_counterexample :
    applet_load_entry [ { id := "a1", lastrun := none, data := [ 'o', 'o', 'p', 's' ] } ]
        "a1" = Except.error PyError.valueError ∧
    ∀ r : Option Value,
      ¬ (applet_load_entry [ { id := "a1", lastrun := none, data := [ 'o', 'o', 'p', 's' ] } ]
          "a1" = Except.ok r) := by
  have hd : decode [ 'o', 'o', 'p', 's' ] = none := by
    simp [decode, parseVal, squote, dquote, lbrace, rbrace]
  have he : applet_load_entry
      [ { id := "a1", lastrun := none, data := [ 'o', 'o', 'p', 's' ] } ] "a1" =
      Except.error PyError.valueError := by
    unfold applet_load_entry
    simp [hd]
  refine ⟨ he, ?_ ⟩
  intro r h
  rw [he] at h
  exact Except.noConfusion h

/-- C3 (amended): when a matching row's stored text fails to decode, the
`ValueError` from `ast.literal_eval` propagates out of `applet_load_entry`
and `plugin_load_entry` — it is not caught, logged, or converted to an
empty result (the handlers catch only `sqlite3.Error`). -/
theorem claim_C3_malformed_propagates :
    (∀ (db : List AppletRow) (applet_id : String) (r : AppletRow) (rest : List AppletRow),
      db.filter (fun row => row.id == applet_id) = r :: rest →
      decode r.data = none →
      applet_load_entry db applet_id = Except.error PyError.valueError) ∧
    (∀ (db : List PluginRow) (name version : String) (r : PluginRow) (rest : List PluginRow)
        (text : List Char),
      db.filter (fun row => row.plugin == name && row.version == version) = r :: rest →
      r.settings = some text →
      decode text = none →
      plugin_load_entry db name version = Except.error PyError.valueError) := by
  constructor
  · intro db applet_id r rest hf hd
    unfold applet_load_entry
    rw [hf]
    simp only [hd]
  · intro db name version r rest text hf hs hd
    unfold plugin_load_entry
    rw [hf]
    simp only [hs, hd]

/-- Witness for C3 on concrete malformed rows. -/
theorem claim_C3_witness :
    applet_load_entry [ { id := "a1", lastrun := none, data := [ 'x', 'y' ] } ] "a1" =
      Except.error PyError.valueError ∧
    plugin_load_entry
        [ { id := 1, plugin := "p", version := "1.0", settings := some [ 'x', 'y' ] } ]
        "p" "1.0" =
      Except.error PyError.valueError :=
  ⟨ claim_C3_malformed_propagates.1
      [ { id := "a1", lastrun := none, data := [ 'x', 'y' ] } ] "a1"
      { id := "a1", lastrun := none, data := [ 'x', 'y' ] } [] rfl
      (by simp [decode, parseVal, squote, dquote, lbrace, rbrace]),
    claim_C3_malformed_propagates.2
      [ { id := 1, plugin := "p", version := "1.0", settings := some [ 'x', 'y' ] } ]
      "p" "1.0"
      { id := 1, plugin := "p", version := "1.0", settings := some [ 'x', 'y' ] } []
      [ 'x', 'y' ] rfl rfl
      (by simp [decode, parseVal, squote, dquote, lbrace, rbrace]) ⟩
